import Mathlib

/-!
Verification of the xitca-web HTTP client core: a shallow embedding in Lean 4
of the endpoint model, the URI resolver, the connection pool service, the TCP
dialing loop, the request send pipeline and the unified response body, taken
from `src/client` and `src/actix-http-alt` of the repository, together with
theorems settling the specification claims about them.
-/

/-- HTTP protocol versions, mirroring the `http` crate's `Version` constants
used throughout the source (`HTTP_09 .. HTTP_3`). -/
inductive Version where
  | HTTP_09
  | HTTP_10
  | HTTP_11
  | HTTP_2
  | HTTP_3
deriving DecidableEq, Repr

/-- A resolved socket address (ip + port), kept abstract except for the pieces
the client inspects. Mirrors `std::net::SocketAddr` at the granularity the
embedded code needs. -/
structure SocketAddr where
  ip : Nat
  port : Nat
deriving DecidableEq, Repr

/-- `Endpoint` from `src/client/src/pool/endpoint.rs`:
`Secure(SocketAddr, String, Version)`, `Address(SocketAddr, Version)`,
`Unix(String)`. -/
inductive Endpoint where
  | Secure (addr : SocketAddr) (sni : String) (version : Version)
  | Address (addr : SocketAddr) (version : Version)
  | Unix (path : String)
deriving DecidableEq, Repr

namespace Endpoint

/-- `Endpoint::version` from `src/client/src/pool/endpoint.rs` lines 13-25:
`Secure` returns its stored version unchanged; `Address` maps `HTTP_2` to
`HTTP_2`, `HTTP_3` to `HTTP_3` and anything else to `HTTP_11`; `Unix` returns
`HTTP_11`. -/
def version : Endpoint → Version
  | .Secure _ _ v => v
  | .Address _ v =>
    match v with
    | .HTTP_2 => .HTTP_2
    | .HTTP_3 => .HTTP_3
    | _ => .HTTP_11
  | .Unix _ => .HTTP_11

end Endpoint

/-- C2 counterexample input: a `Secure` endpoint whose stored max version is
HTTP/1.0. -/
def secureHttp10 : Endpoint :=
  .Secure ⟨0, 443⟩ "example.com" .HTTP_10

/-- C2: the claim states that for the `Secure` variant any stored version below
HTTP/2 normalizes to HTTP/1.1.  On `Endpoint::Secure(addr, sni, HTTP_10)` the
code returns the stored `HTTP_10` unchanged, not `HTTP_11`, refuting the claim
as stated. -/
theorem secure_version_not_normalized :
    secureHttp10.version = Version.HTTP_10 ∧ secureHttp10.version ≠ Version.HTTP_11 := by
  decide

/-- C2 (amended): `version()` of a `Secure` endpoint returns the stored max
version unchanged; `version()` of an `Address` endpoint returns HTTP/2 and
HTTP/3 unchanged and normalizes any lesser version to HTTP/1.1; `version()` of
a `Unix` endpoint is always HTTP/1.1. -/
theorem endpoint_version_spec (addr : SocketAddr) (sni : String) (path : String) (v : Version) :
    (Endpoint.Secure addr sni v).version = v ∧
    (Endpoint.Address addr .HTTP_2).version = .HTTP_2 ∧
    (Endpoint.Address addr .HTTP_3).version = .HTTP_3 ∧
    (v ≠ .HTTP_2 → v ≠ .HTTP_3 → (Endpoint.Address addr v).version = .HTTP_11) ∧
    (Endpoint.Unix path).version = .HTTP_11 := by
  refine ⟨rfl, rfl, rfl, ?_, rfl⟩
  intro h2 h3
  cases v with
  | HTTP_2 => exact absurd rfl h2
  | HTTP_3 => exact absurd rfl h3
  | _ => rfl

/-- C2 witness: the amended theorem applied at a concrete endpoint with stored
version HTTP/1.0. -/
theorem endpoint_version_spec_witness :
    (Endpoint.Address ⟨0, 80⟩ .HTTP_10).version = .HTTP_11 :=
  (endpoint_version_spec ⟨0, 80⟩ "example.com" "/run/app.sock" .HTTP_10).2.2.2.1
    (by decide) (by decide)

/-- `InvalidUri` error kinds (`MissingHost`, `MissingScheme`,
`MissingPathQuery`); the variants are those matched in
`src/client/src/pool/resolver.rs`, the enum itself lives in the crate's error
module. Modelled from the spec: section 7 lists exactly these three kinds. -/
inductive InvalidUriKind where
  | MissingHost
  | MissingScheme
  | MissingPathQuery
deriving DecidableEq, Repr

/-- `Timeout` error kinds distinguishing which phase exceeded its budget.
Modelled from the spec: section 7 lists `Connect`, `TlsHandshake`, `Request`. -/
inductive TimeoutKind where
  | Connect
  | TlsHandshake
  | Request
deriving DecidableEq, Repr

/-- The client error type. The variants used by the embedded code are those
constructed in `resolver.rs`, `pool/mod.rs` and `request.rs`; the enum itself
is in the crate's error module. Modelled from the spec: section 7's taxonomy
(`Io`, `Timeout`, `InvalidUri`, `Resolve` carrying the hostname, and a
catch-all for protocol/body errors treated opaquely here). -/
inductive ErrorM where
  | invalidUri (k : InvalidUriKind)
  | resolve (hostname : String)
  | ioErr (code : Nat)
  | timeout (k : TimeoutKind)
  | other (code : Nat)
deriving DecidableEq, Repr

/-- The components of a parsed URI that `DefaultResolver::call` inspects:
`scheme_str()`, `host()`, `port_u16()`, `path_and_query()`. -/
structure UriParts where
  scheme : Option String
  host : Option String
  port : Option Nat
  pathAndQuery : Option String
deriving DecidableEq, Repr

/-- The effective port computed in `resolver.rs` lines 39-43:
`uri.port_u16().unwrap_or_else(..)` with defaults 80 for http/ws, 443 for
https/wss and 0 otherwise. -/
def resolverPort (scheme : String) (explicit : Option Nat) : Nat :=
  explicit.getD
    (if scheme = "http" ∨ scheme = "ws" then 80
     else if scheme = "https" ∨ scheme = "wss" then 443
     else 0)

/-- The `is_secure` flag computed in `resolver.rs` lines 45-49: false for
http/ws, true for https/wss, otherwise `port == 443`. -/
def resolverIsSecure (scheme : String) (port : Nat) : Bool :=
  if scheme = "http" ∨ scheme = "ws" then false
  else if scheme = "https" ∨ scheme = "wss" then true
  else port == 443

/-- Name resolution oracle standing for the blocking
`(host, port).to_socket_addrs()` call: either an error (propagated by `?`) or
a list of socket addresses. -/
def ResolveOracle : Type :=
  String → Nat → Except ErrorM (List SocketAddr)

/-- `DefaultResolver::call` from `src/client/src/pool/resolver.rs` lines
20-67: match on (scheme, host) yielding `MissingHost` / `MissingScheme`; the
unix scheme returns one `Unix` endpoint built from "/" + host + path-and-query
(requiring the path-and-query, else `MissingPathQuery`); otherwise compute the
port and security flag, resolve host:port to addresses, and map each address
to a `Secure` (if secure) or `Address` endpoint carrying the requested
version. -/
def resolverCall (oracle : ResolveOracle) (uri : UriParts) (version : Version) :
    Except ErrorM (List Endpoint) := do
  let (scheme, host) ←
    match uri.scheme, uri.host with
    | _, none => Except.error (ErrorM.invalidUri .MissingHost)
    | none, _ => Except.error (ErrorM.invalidUri .MissingScheme)
    | some s, some h => Except.ok (s, h)
  if scheme = "unix" then
    match uri.pathAndQuery with
    | none => Except.error (ErrorM.invalidUri .MissingPathQuery)
    | some paq => return [Endpoint.Unix ("/" ++ host ++ paq)]
  else
    let port := resolverPort scheme uri.port
    let isSecure := resolverIsSecure scheme port
    let addrs ← oracle host port
    return addrs.map fun addr =>
      if isSecure then Endpoint.Secure addr host version
      else Endpoint.Address addr version

/-- An oracle whose name resolution succeeds with zero addresses. -/
def emptyOracle : ResolveOracle := fun _ _ => Except.ok []

/-- C4 counterexample: with name resolution succeeding but returning no
addresses, `resolve` on `http://example.com/` returns `Ok` with an empty
endpoint list — it does not fail with a resolution error as the claim
states. -/
theorem resolver_empty_addresses_is_ok :
    resolverCall emptyOracle ⟨some "http", some "example.com", none, some "/"⟩ .HTTP_11
      = Except.ok [] := by
  rfl


/-- Helper: for a non-unix scheme with scheme and host present, `resolve`
consults name resolution at the computed port and maps each returned address
to a `Secure` or `Address` endpoint according to the security flag, while
propagating a resolution failure unchanged. -/
theorem resolverCall_net (oracle : ResolveOracle) (s h : String) (port? : Option Nat)
    (paq : Option String) (v : Version) (hs : ¬ s = "unix") :
    resolverCall oracle ⟨some s, some h, port?, paq⟩ v
      = (oracle h (resolverPort s port?)).map (List.map fun a =>
          if resolverIsSecure s (resolverPort s port?) then Endpoint.Secure a h v
          else Endpoint.Address a v) := by
  unfold resolverCall
  simp only [hs, if_false]
  rcases he : oracle h (resolverPort s port?) with e | l <;>
    simp [he, Except.map, Except.bind, bind, pure, Except.pure] <;>
    exact fun hc => absurd hc hs

/-- C4 (amended): `resolve` fails with `MissingHost` when the URI has no host,
`MissingScheme` when it has a host but no scheme, `MissingPathQuery` for a
unix-scheme URI without path-and-query; a failure of name resolution itself is
propagated; when name resolution succeeds with zero addresses, `resolve`
returns an empty endpoint list rather than an error (the resolution error for
an exhausted address list is raised later, by TCP dialing). -/
theorem resolver_error_cases (oracle : ResolveOracle) (uri : UriParts) (v : Version) :
    (uri.host = none → resolverCall oracle uri v
        = Except.error (ErrorM.invalidUri .MissingHost)) ∧
    (∀ h, uri.host = some h → uri.scheme = none → resolverCall oracle uri v
        = Except.error (ErrorM.invalidUri .MissingScheme)) ∧
    (∀ h, uri.scheme = some "unix" → uri.host = some h → uri.pathAndQuery = none →
      resolverCall oracle uri v = Except.error (ErrorM.invalidUri .MissingPathQuery)) ∧
    (∀ s h e, uri.scheme = some s → uri.host = some h → ¬ s = "unix" →
      oracle h (resolverPort s uri.port) = Except.error e →
      resolverCall oracle uri v = Except.error e) ∧
    (∀ s h, uri.scheme = some s → uri.host = some h → ¬ s = "unix" →
      oracle h (resolverPort s uri.port) = Except.ok [] →
      resolverCall oracle uri v = Except.ok []) := by
  obtain ⟨s?, h?, p?, q?⟩ := uri
  refine ⟨?_, ?_, ?_, ?_, ?_⟩
  · intro hh
    cases hh
    cases s? <;> rfl
  · intro h hh hsch
    cases hh; cases hsch
    rfl
  · intro h hsch hh hpaq
    cases hh; cases hsch; cases hpaq
    rfl
  · intro s h e hsch hh hs he
    cases hh; cases hsch
    rw [resolverCall_net oracle s h p? q? v hs, he]
    rfl
  · intro s h hsch hh hs he
    cases hh; cases hsch
    rw [resolverCall_net oracle s h p? q? v hs, he]
    rfl

/-- C4 witness: the amended theorem applied to concrete URIs — a URI with no
host yields `MissingHost`, and a unix URI without path-and-query yields
`MissingPathQuery`. -/
theorem resolver_error_cases_witness :
    resolverCall emptyOracle ⟨some "http", none, none, some "/"⟩ .HTTP_11
        = Except.error (ErrorM.invalidUri .MissingHost) ∧
    resolverCall emptyOracle ⟨some "unix", some "run", none, none⟩ .HTTP_11
        = Except.error (ErrorM.invalidUri .MissingPathQuery) :=
  ⟨(resolver_error_cases emptyOracle ⟨some "http", none, none, some "/"⟩ .HTTP_11).1 rfl,
   (resolver_error_cases emptyOracle ⟨some "unix", some "run", none, none⟩ .HTTP_11).2.2.1
     "run" rfl rfl rfl⟩

/-- C8: for non-unix URIs the resolver uses security=false with default port
80 for http/ws (mapping every resolved address to an `Address` endpoint
carrying the requested version), security=true with default port 443 for
https/wss (mapping every address to a `Secure` endpoint carrying host and
version), and for an unknown scheme infers security from the port being 443 —
in particular with no explicit port the effective port is 0 and the endpoints
are plaintext `Address` ones. -/
theorem resolver_scheme_security (oracle : ResolveOracle) (h : String) (port? : Option Nat)
    (paq : Option String) (v : Version) :
    (∀ s, s = "http" ∨ s = "ws" →
      resolverCall oracle ⟨some s, some h, port?, paq⟩ v
        = (oracle h (port?.getD 80)).map (List.map fun a => Endpoint.Address a v)) ∧
    (∀ s, s = "https" ∨ s = "wss" →
      resolverCall oracle ⟨some s, some h, port?, paq⟩ v
        = (oracle h (port?.getD 443)).map (List.map fun a => Endpoint.Secure a h v)) ∧
    (∀ s, ¬ s = "unix" → ¬ s = "http" → ¬ s = "ws" → ¬ s = "https" → ¬ s = "wss" →
      resolverCall oracle ⟨some s, some h, none, paq⟩ v
        = (oracle h 0).map (List.map fun a => Endpoint.Address a v)) ∧
    (∀ s q, ¬ s = "unix" → ¬ s = "http" → ¬ s = "ws" → ¬ s = "https" → ¬ s = "wss" →
      resolverCall oracle ⟨some s, some h, some q, paq⟩ v
        = (oracle h q).map (List.map fun a =>
            if q == 443 then Endpoint.Secure a h v else Endpoint.Address a v)) := by
  refine ⟨?_, ?_, ?_, ?_⟩
  · rintro s (rfl | rfl) <;>
      rw [resolverCall_net oracle _ h port? paq v (by decide)] <;>
      simp [resolverPort, resolverIsSecure]
  · rintro s (rfl | rfl) <;>
      rw [resolverCall_net oracle _ h port? paq v (by decide)] <;>
      simp [resolverPort, resolverIsSecure]
  · intro s hu hh hw hhs hws
    rw [resolverCall_net oracle s h none paq v hu]
    simp [resolverPort, resolverIsSecure, hh, hw, hhs, hws]
  · intro s q hu hh hw hhs hws
    rw [resolverCall_net oracle s h (some q) paq v hu]
    simp only [resolverPort, resolverIsSecure, Option.getD_some]
    simp [hh, hw, hhs, hws]

/-- C8 witness: resolving `https://example.com/` with no explicit port against
an oracle returning one address yields one `Secure` endpoint (port 443 was
used), and `http://example.com/` yields one plaintext `Address` endpoint (port
80 was used). -/
theorem resolver_scheme_security_witness :
    resolverCall (fun _ p => Except.ok [⟨7, p⟩]) ⟨some "https", some "example.com", none, some "/"⟩ .HTTP_2
        = Except.ok [Endpoint.Secure ⟨7, 443⟩ "example.com" .HTTP_2] ∧
    resolverCall (fun _ p => Except.ok [⟨7, p⟩]) ⟨some "http", some "example.com", none, some "/"⟩ .HTTP_2
        = Except.ok [Endpoint.Address ⟨7, 80⟩ .HTTP_2] :=
  ⟨((resolver_scheme_security (fun _ p => Except.ok [⟨7, p⟩]) "example.com" none (some "/") .HTTP_2).2.1
      "https" (Or.inl rfl)).trans rfl,
   ((resolver_scheme_security (fun _ p => Except.ok [⟨7, p⟩]) "example.com" none (some "/") .HTTP_2).1
      "http" (Or.inl rfl)).trans rfl⟩

/-- The outcome of `pool.acquire` in `src/client/src/pool/mod.rs`: either an
idle connection handed out of the pool, or a `Spawner` capability for
registering a freshly dialed connection (the pool internals live in the
`exclusive`/`shared` submodules, outside the embedded sources, so both
payloads are abstract here). -/
inductive AcquireOutput where
  | conn
  | spawner
deriving DecidableEq, Repr

/-- Which sub-pool a connection returned by `PoolService::call` came from. -/
inductive PooledConnKind where
  | exclusive
  | shared
deriving DecidableEq, Repr

/-- The observable outcome of running `PoolService::call`: a normal return, or
a panic (the Rust `unreachable!` macro aborts the call). -/
inductive PoolCallOutcome where
  | ok (version : Version) (conn : PooledConnKind)
  | panicked
deriving DecidableEq, Repr

/-- `PoolService::call` from `src/client/src/pool/mod.rs` lines 53-106: for
max version HTTP/2 or HTTP/3 acquire from the shared pool, otherwise from the
exclusive pool; an idle `Conn` is returned immediately with the version, while
the `Spawner` arm falls through to `unreachable!("")` — the establishment code
below it is commented out. -/
def poolServiceCall (maxVersion : Version) (sharedAcquire exclusiveAcquire : AcquireOutput) :
    PoolCallOutcome :=
  match maxVersion with
  | .HTTP_2 | .HTTP_3 =>
    match sharedAcquire with
    | .conn => .ok maxVersion .shared
    | .spawner => .panicked
  | v =>
    match exclusiveAcquire with
    | .conn => .ok v .exclusive
    | .spawner => .panicked

/-- C1: on a cold pool key — the pool's `acquire` hands back a `Spawner`
because no idle connection exists — `PoolService::call` reaches the
`unreachable!("")` arm and panics instead of dialing a new connection, for
both the exclusive (HTTP/1.1) and the shared (HTTP/2) path. -/
theorem pool_call_panics_on_cold_key :
    poolServiceCall .HTTP_11 .spawner .spawner = .panicked ∧
    poolServiceCall .HTTP_2 .spawner .spawner = .panicked ∧
    poolServiceCall .HTTP_11 .conn .conn = .ok .HTTP_11 .exclusive ∧
    poolServiceCall .HTTP_2 .conn .conn = .ok .HTTP_2 .shared := by
  decide

/-- A TCP connect oracle standing for
`PoolService::maybe_connect_with_local_addr`: per address, either a stream
(identified by a code) or a connect error. -/
def ConnectOracle : Type :=
  SocketAddr → Except ErrorM Nat

/-- The retry loop of `PoolService::make_tcp_inner`
(`src/client/src/pool/mod.rs` lines 176-186): try the current address; on
success return the stream, on failure advance to the next address, returning
the last error when the list is exhausted. -/
def makeTcpLoop (connect : ConnectOracle) (addr : SocketAddr) (rest : List SocketAddr) :
    Except ErrorM Nat :=
  match connect addr with
  | .ok stream => .ok stream
  | .error e =>
    match rest with
    | [] => .error e
    | a :: rest2 => makeTcpLoop connect a rest2

/-- `PoolService::make_tcp_inner` from `src/client/src/pool/mod.rs` lines
171-187: take the first resolved address (failing with a `Resolve` error
carrying the hostname when the list is empty), then run the in-order connect
loop. -/
def makeTcpInner (connect : ConnectOracle) (hostname : String) (addrs : List SocketAddr) :
    Except ErrorM Nat :=
  match addrs with
  | [] => .error (ErrorM.resolve hostname)
  | a :: rest => makeTcpLoop connect a rest

/-- Helper: a failed connect attempt advances the loop to the next address. -/
theorem makeTcpLoop_step (connect : ConnectOracle) (p x : SocketAddr) (xs : List SocketAddr)
    (e : ErrorM) (hp : connect p = .error e) :
    makeTcpLoop connect p (x :: xs) = makeTcpLoop connect x xs := by
  rw [makeTcpLoop, hp]

/-- Helper: on a non-empty list the wrapper just enters the loop at the head. -/
theorem makeTcpInner_cons (connect : ConnectOracle) (hostname : String) (a : SocketAddr)
    (rest : List SocketAddr) :
    makeTcpInner connect hostname (a :: rest) = makeTcpLoop connect a rest := rfl

/-- Helper: when every address in the prefix fails and `b` connects, dialing
returns `b`'s stream. -/
theorem makeTcpInner_first_success (connect : ConnectOracle) (hostname : String) :
    ∀ (pre : List SocketAddr) (b : SocketAddr) (post : List SocketAddr) (s : Nat),
      (∀ a ∈ pre, ∃ e, connect a = Except.error e) → connect b = Except.ok s →
      makeTcpInner connect hostname (pre ++ b :: post) = Except.ok s := by
  intro pre
  induction pre with
  | nil =>
    intro b post s _ hb
    rw [List.nil_append, makeTcpInner_cons]
    unfold makeTcpLoop
    rw [hb]
  | cons p pre' ih =>
    intro b post s hpre hb
    obtain ⟨e, he⟩ := hpre p (List.mem_cons_self p pre')
    rw [List.cons_append, makeTcpInner_cons]
    rcases hdec : pre' ++ b :: post with _ | ⟨y, ys⟩
    · exact absurd hdec (by simp)
    · rw [makeTcpLoop_step connect p y ys e he, ← makeTcpInner_cons connect hostname, ← hdec]
      exact ih b post s (fun a ha => hpre a (List.mem_cons_of_mem p ha)) hb

/-- Helper: when every address fails, dialing returns the last address's
error. -/
theorem makeTcpInner_all_fail (connect : ConnectOracle) (hostname : String) :
    ∀ (init : List SocketAddr) (last : SocketAddr),
      (∀ a ∈ init, ∃ e, connect a = Except.error e) →
      (∃ e, connect last = Except.error e) →
      makeTcpInner connect hostname (init ++ [last]) = connect last := by
  intro init
  induction init with
  | nil =>
    intro last _ hlast
    obtain ⟨e, he⟩ := hlast
    rw [List.nil_append, makeTcpInner_cons]
    unfold makeTcpLoop
    rw [he]
  | cons p init' ih =>
    intro last hinit hlast
    obtain ⟨e, he⟩ := hinit p (List.mem_cons_self p init')
    rw [List.cons_append, makeTcpInner_cons]
    rcases hdec : init' ++ [last] with _ | ⟨y, ys⟩
    · exact absurd hdec (by simp)
    · rw [makeTcpLoop_step connect p y ys e he, ← makeTcpInner_cons connect hostname, ← hdec]
      exact ih last (fun a ha => hinit a (List.mem_cons_of_mem p ha)) hlast

/-- C5: TCP dialing tries the resolved addresses in list order — when every
address before `b` fails to connect and `b` accepts, the result is `b`'s
stream with no earlier error surfaced; and when every address fails, the
result is exactly the error of the last address attempted, earlier errors
being discarded. -/
theorem make_tcp_inner_address_fallback (connect : ConnectOracle) (hostname : String) :
    (∀ (pre : List SocketAddr) (b : SocketAddr) (post : List SocketAddr) (s : Nat),
      (∀ a ∈ pre, ∃ e, connect a = Except.error e) → connect b = Except.ok s →
      makeTcpInner connect hostname (pre ++ b :: post) = Except.ok s) ∧
    (∀ (init : List SocketAddr) (last : SocketAddr),
      (∀ a ∈ init, ∃ e, connect a = Except.error e) →
      (∃ e, connect last = Except.error e) →
      makeTcpInner connect hostname (init ++ [last]) = connect last) :=
  ⟨makeTcpInner_first_success connect hostname, makeTcpInner_all_fail connect hostname⟩

/-- A connect oracle under which address ip=0 refuses the connection and any
other address accepts with stream 5. -/
def refuseFirstOracle : ConnectOracle :=
  fun a => if a.ip = 0 then Except.error (ErrorM.ioErr 111) else Except.ok 5

/-- A connect oracle under which every address fails, with the error carrying
the address's ip. -/
def allFailOracle : ConnectOracle :=
  fun a => Except.error (ErrorM.ioErr a.ip)

/-- C5 witness: with list `[A, B]` where A (ip=0) refuses and B (ip=1)
accepts, dialing returns B's stream; and with both failing, dialing returns
B's error (ip 1), not A's. -/
theorem make_tcp_inner_address_fallback_witness :
    makeTcpInner refuseFirstOracle "example.com" [⟨0, 80⟩, ⟨1, 80⟩] = Except.ok 5 ∧
    makeTcpInner allFailOracle "example.com" [⟨0, 80⟩, ⟨1, 80⟩]
      = Except.error (ErrorM.ioErr 1) :=
  ⟨(make_tcp_inner_address_fallback refuseFirstOracle "example.com").1
      [⟨0, 80⟩] ⟨1, 80⟩ [] 5
      (by intro a ha; refine ⟨ErrorM.ioErr 111, ?_⟩; simp at ha; simp [ha, refuseFirstOracle])
      (by simp [refuseFirstOracle]),
   ((make_tcp_inner_address_fallback allFailOracle "example.com").2
      [⟨0, 80⟩] ⟨1, 80⟩
      (by intro a ha; exact ⟨ErrorM.ioErr a.ip, rfl⟩)
      ⟨ErrorM.ioErr 1, rfl⟩).trans rfl⟩

/-- Timeout configuration fields of the client consulted by `Request::send`
(`client.timeout_config` in `src/client/src/request.rs`). Modelled from the
spec: base request/response/resolve timeouts of the process-wide
configuration. -/
structure TimeoutConfig where
  resolve_timeout : Nat
  request_timeout : Nat
  response_timeout : Nat
deriving DecidableEq, Repr

/-- The connection variants matched by `Request::send`
(`src/client/src/request.rs` lines 195-248): plain TCP stream, TLS stream,
Unix stream, HTTP/2 connection, HTTP/3 connection. The enum itself lives in
the crate's connection module. Modelled from the spec: exclusive stream
connections plus shared multiplexed H2/H3 connections. -/
inductive ConnVariant where
  | tcp
  | tls
  | unix
  | h2
  | h3
deriving DecidableEq, Repr

/-- Outcome of one wire-level send guarded by the timer: the outer `Except` is
the timeout race (`error` = deadline elapsed), the inner one the protocol
result. For HTTP/1 the success payload is the `is_close` flag of the parsed
response; for H2/H3 it is opaque. -/
def H1Oracle : Type := Except Unit (Except ErrorM Bool)

/-- Timeout-raced protocol send outcome for the H2/H3 paths. -/
def H2Oracle : Type := Except Unit (Except ErrorM Unit)

/-- The observable outcome of `Request::send` after the connection was
obtained: the durations the shared timer was set/reset to (in order), the
request's version field at the moment of wire transmission, whether the
connection was marked `destroy_on_drop`, and the result. -/
structure SendOutcome where
  timerDurs : List Nat
  sentVersion : Option Version
  destroyOnDrop : Bool
  result : Except ErrorM Unit
deriving Repr

/-- `Request::send` from `src/client/src/request.rs` lines 154-270, with the
connection-acquisition, connection-making and wire-send steps as oracles: the
initial timer duration is the resolve timeout when the pool was empty and the
request-level timeout otherwise; a connection is established if none was
pooled; the timer is then reset to the client's global `request_timeout`; the
request version is downgraded to HTTP/1.1 on plain TCP/TLS streams when it was
HTTP/2 or HTTP/3, left unchanged on Unix streams, and forced to HTTP/2 (resp.
HTTP/3) on H2 (resp. H3) connections; an elapsed timer yields
`Timeout::Request` and marks the connection destroyed, a protocol error is
propagated and marks it destroyed, and a successful HTTP/1 response with
`is_close` marks it destroyed as well. -/
def sendModel (cfg : TimeoutConfig) (reqTimeout : Nat) (pool : Option ConnVariant)
    (mk : Except ErrorM ConnVariant) (reqVersion : Version)
    (h1 : H1Oracle) (h2 : H2Oracle) (h3 : H2Oracle) : SendOutcome :=
  let connIsNone := pool.isNone
  let dur := if connIsNone then cfg.resolve_timeout else reqTimeout
  let acquired : Except ErrorM ConnVariant :=
    match pool with
    | some c => .ok c
    | none => mk
  match acquired with
  | .error e => ⟨[dur], none, false, .error e⟩
  | .ok conn =>
    let durs := [dur, cfg.request_timeout]
    match conn with
    | .tcp | .tls =>
      let sentV := if reqVersion = .HTTP_2 ∨ reqVersion = .HTTP_3 then .HTTP_11 else reqVersion
      match h1 with
      | .error _ => ⟨durs, some sentV, true, .error (.timeout .Request)⟩
      | .ok (.error e) => ⟨durs, some sentV, true, .error e⟩
      | .ok (.ok isClose) => ⟨durs, some sentV, isClose, .ok ()⟩
    | .unix =>
      match h1 with
      | .error _ => ⟨durs, some reqVersion, true, .error (.timeout .Request)⟩
      | .ok (.error e) => ⟨durs, some reqVersion, true, .error e⟩
      | .ok (.ok isClose) => ⟨durs, some reqVersion, isClose, .ok ()⟩
    | .h2 =>
      match h2 with
      | .error _ => ⟨durs, some .HTTP_2, true, .error (.timeout .Request)⟩
      | .ok (.error e) => ⟨durs, some .HTTP_2, true, .error e⟩
      | .ok (.ok _) => ⟨durs, some .HTTP_2, false, .ok ()⟩
    | .h3 =>
      match h3 with
      | .error _ => ⟨durs, some .HTTP_3, true, .error (.timeout .Request)⟩
      | .ok (.error e) => ⟨durs, some .HTTP_3, true, .error e⟩
      | .ok (.ok _) => ⟨durs, some .HTTP_3, false, .ok ()⟩

/-- C3: with a per-request timeout of 1000 set on the request while the
client's global request timeout is 5000, and a pooled TCP connection
available, the transmission phase of `send` runs under a timer reset to the
global 5000 — the per-request value only sizes the initial timer, which is
reset before any wire activity, so the per-request timeout never guards the
transmission/response phase. -/
theorem request_timeout_not_overridden :
    (sendModel ⟨300, 5000, 2000⟩ 1000 (some .tcp) (.ok .tcp) .HTTP_11
        (.ok (.ok false)) (.ok (.ok ())) (.ok (.ok ()))).timerDurs = [1000, 5000] ∧
    (sendModel ⟨300, 5000, 2000⟩ 1000 none (.ok .tcp) .HTTP_11
        (.ok (.ok false)) (.ok (.ok ())) (.ok (.ok ()))).timerDurs = [300, 5000] := by
  exact ⟨rfl, rfl⟩

/-- C6: during `send` over a pooled connection, an elapsed request timer
yields the distinct `Timeout::Request` error (not an I/O error) and marks the
connection `destroy_on_drop`; a protocol/I/O error from the wire send is
propagated and likewise marks it; and on success over an HTTP/1 stream the
connection is marked for destruction exactly when the response reports
`is_close`, while a successful H2/H3 exchange leaves it unmarked. -/
theorem send_failure_policy (cfg : TimeoutConfig) (rt : Nat) (c : ConnVariant)
    (mk : Except ErrorM ConnVariant) (rv : Version) (h1 : H1Oracle) (h2 h3 : H2Oracle) :
    ((c = .tcp ∨ c = .tls ∨ c = .unix) →
      (h1 = .error () →
        (sendModel cfg rt (some c) mk rv h1 h2 h3).result = .error (.timeout .Request) ∧
        (sendModel cfg rt (some c) mk rv h1 h2 h3).destroyOnDrop = true) ∧
      (∀ e, h1 = .ok (.error e) →
        (sendModel cfg rt (some c) mk rv h1 h2 h3).result = .error e ∧
        (sendModel cfg rt (some c) mk rv h1 h2 h3).destroyOnDrop = true) ∧
      (∀ isClose, h1 = .ok (.ok isClose) →
        (sendModel cfg rt (some c) mk rv h1 h2 h3).result = .ok () ∧
        (sendModel cfg rt (some c) mk rv h1 h2 h3).destroyOnDrop = isClose)) ∧
    (c = .h2 →
      (h2 = .error () →
        (sendModel cfg rt (some c) mk rv h1 h2 h3).result = .error (.timeout .Request) ∧
        (sendModel cfg rt (some c) mk rv h1 h2 h3).destroyOnDrop = true) ∧
      (∀ e, h2 = .ok (.error e) →
        (sendModel cfg rt (some c) mk rv h1 h2 h3).result = .error e ∧
        (sendModel cfg rt (some c) mk rv h1 h2 h3).destroyOnDrop = true) ∧
      (h2 = .ok (.ok ()) →
        (sendModel cfg rt (some c) mk rv h1 h2 h3).result = .ok () ∧
        (sendModel cfg rt (some c) mk rv h1 h2 h3).destroyOnDrop = false)) ∧
    (c = .h3 →
      (h3 = .error () →
        (sendModel cfg rt (some c) mk rv h1 h2 h3).result = .error (.timeout .Request) ∧
        (sendModel cfg rt (some c) mk rv h1 h2 h3).destroyOnDrop = true) ∧
      (∀ e, h3 = .ok (.error e) →
        (sendModel cfg rt (some c) mk rv h1 h2 h3).result = .error e ∧
        (sendModel cfg rt (some c) mk rv h1 h2 h3).destroyOnDrop = true) ∧
      (h3 = .ok (.ok ()) →
        (sendModel cfg rt (some c) mk rv h1 h2 h3).result = .ok () ∧
        (sendModel cfg rt (some c) mk rv h1 h2 h3).destroyOnDrop = false)) := by
  refine ⟨?_, ?_, ?_⟩
  · intro hc
    refine ⟨?_, ?_, ?_⟩
    · rintro rfl
      rcases hc with rfl | rfl | rfl <;> exact ⟨rfl, rfl⟩
    · rintro e rfl
      rcases hc with rfl | rfl | rfl <;> exact ⟨rfl, rfl⟩
    · rintro isClose rfl
      rcases hc with rfl | rfl | rfl <;> exact ⟨rfl, rfl⟩
  · rintro rfl
    exact ⟨fun h => h ▸ ⟨rfl, rfl⟩, fun e h => h ▸ ⟨rfl, rfl⟩, fun h => h ▸ ⟨rfl, rfl⟩⟩
  · rintro rfl
    exact ⟨fun h => h ▸ ⟨rfl, rfl⟩, fun e h => h ▸ ⟨rfl, rfl⟩, fun h => h ▸ ⟨rfl, rfl⟩⟩

/-- C6 witness: over a pooled TLS stream whose wire send exceeds the timer,
the result is the `Timeout::Request` error and the connection is marked
`destroy_on_drop`; over a pooled H2 connection a successful exchange leaves
the connection unmarked. -/
theorem send_failure_policy_witness :
    ((sendModel ⟨300, 5000, 2000⟩ 1000 (some .tls) (.ok .tls) .HTTP_11
        (.error ()) (.ok (.ok ())) (.ok (.ok ()))).result
      = .error (.timeout .Request) ∧
     (sendModel ⟨300, 5000, 2000⟩ 1000 (some .tls) (.ok .tls) .HTTP_11
        (.error ()) (.ok (.ok ())) (.ok (.ok ()))).destroyOnDrop = true) ∧
    ((sendModel ⟨300, 5000, 2000⟩ 1000 (some .h2) (.ok .h2) .HTTP_2
        (.ok (.ok false)) (.ok (.ok ())) (.ok (.ok ()))).result = .ok () ∧
     (sendModel ⟨300, 5000, 2000⟩ 1000 (some .h2) (.ok .h2) .HTTP_2
        (.ok (.ok false)) (.ok (.ok ())) (.ok (.ok ()))).destroyOnDrop = false) :=
  ⟨((send_failure_policy ⟨300, 5000, 2000⟩ 1000 .tls (.ok .tls) .HTTP_11
      (.error ()) (.ok (.ok ())) (.ok (.ok ()))).1 (Or.inr (Or.inl rfl))).1 rfl,
   ((send_failure_policy ⟨300, 5000, 2000⟩ 1000 .h2 (.ok .h2) .HTTP_2
      (.ok (.ok false)) (.ok (.ok ())) (.ok (.ok ()))).2.1 rfl).2.2 rfl⟩

/-- C7: at the moment of wire transmission the request version is HTTP/1.1
over a plain TCP or TLS stream when the request specified HTTP/2 or HTTP/3
(and unchanged over those streams otherwise), is forced to HTTP/2 over an H2
connection, and is forced to HTTP/3 over an H3 connection. -/
theorem send_version_adjustment (cfg : TimeoutConfig) (rt : Nat)
    (mk : Except ErrorM ConnVariant) (rv : Version) (h1 : H1Oracle) (h2 h3 : H2Oracle) :
    (∀ c, (c = .tcp ∨ c = .tls) → (rv = .HTTP_2 ∨ rv = .HTTP_3) →
      (sendModel cfg rt (some c) mk rv h1 h2 h3).sentVersion = some .HTTP_11) ∧
    (∀ c, (c = .tcp ∨ c = .tls) → ¬ (rv = .HTTP_2 ∨ rv = .HTTP_3) →
      (sendModel cfg rt (some c) mk rv h1 h2 h3).sentVersion = some rv) ∧
    (sendModel cfg rt (some .h2) mk rv h1 h2 h3).sentVersion = some .HTTP_2 ∧
    (sendModel cfg rt (some .h3) mk rv h1 h2 h3).sentVersion = some .HTTP_3 := by
  refine ⟨?_, ?_, ?_, ?_⟩
  · rintro c (rfl | rfl) hv <;>
      rcases h1 with u | e | isClose <;>
      simp [sendModel, hv]
  · rintro c (rfl | rfl) hv <;>
      rcases h1 with u | e | isClose <;>
      simp [sendModel, hv]
  · rcases h2 with u | e | x <;> simp [sendModel]
  · rcases h3 with u | e | x <;> simp [sendModel]

/-- C7 witness: a request specifying HTTP/2 sent over a pooled plain TCP
stream goes out as HTTP/1.1. -/
theorem send_version_adjustment_witness :
    (sendModel ⟨300, 5000, 2000⟩ 1000 (some .tcp) (.ok .tcp) .HTTP_2
        (.ok (.ok false)) (.ok (.ok ())) (.ok (.ok ()))).sentVersion = some .HTTP_11 :=
  (send_version_adjustment ⟨300, 5000, 2000⟩ 1000 (.ok .tcp) .HTTP_2
      (.ok (.ok false)) (.ok (.ok ())) (.ok (.ok ()))).1 .tcp (Or.inl rfl) (Or.inl rfl)

/-- Rust `Poll`: a poll either yields a value or is pending. -/
inductive Poll (α : Type) where
  | ready (val : α)
  | pending
deriving DecidableEq, Repr

/-- `ResponseBody` from `src/actix-http-alt/src/body.rs` lines 45-54: `None`,
`Bytes { bytes }` (a pre-materialized chunk, bytes modelled as a byte list)
and `Stream { stream }` over a generic pinned stream type. -/
inductive ResponseBodyM (B : Type) where
  | none
  | bytes (bytes : List Nat)
  | stream (stream : B)
deriving DecidableEq, Repr

namespace ResponseBodyM

/-- `ResponseBody::is_eof` from `src/actix-http-alt/src/body.rs` lines 69-75:
`None` reports true, `Bytes` reports the buffer's emptiness, `Stream` reports
false. -/
def is_eof {B : Type} : ResponseBodyM B → Bool
  | .none => true
  | .bytes b => b.isEmpty
  | .stream _ => false

/-- `<ResponseBody as Stream>::poll_next` from `src/actix-http-alt/src/body.rs`
lines 106-115: `None` is ready with end-of-stream; `Bytes` replaces itself
with `None` and is ready with the whole buffer as one `Ok` item; `Stream`
forwards the poll to the wrapped stream (given here as a state-passing
oracle), converting a stream-level error through `From::from` (the `conv`
function) and leaving the variant a `Stream` over the advanced state. -/
def poll_next {B E F : Type} (streamPoll : B → Poll (Option (Except E (List Nat))) × B)
    (conv : E → F) :
    ResponseBodyM B → Poll (Option (Except F (List Nat))) × ResponseBodyM B
  | .none => (.ready Option.none, .none)
  | .bytes b => (.ready (some (.ok b)), .none)
  | .stream s =>
    match streamPoll s with
    | (.ready Option.none, s2) => (.ready Option.none, .stream s2)
    | (.ready (some (.ok b)), s2) => (.ready (some (.ok b)), .stream s2)
    | (.ready (some (.error e)), s2) => (.ready (some (.error (conv e))), .stream s2)
    | (.pending, s2) => (.pending, .stream s2)

end ResponseBodyM

/-- C9: polling a `None` body is always ready with end-of-stream; the first
poll of a `Bytes` body is ready with the entire pre-materialized buffer as one
`Ok` item and transitions the body to `None`; and `is_eof` consumes nothing —
it is true for `None`, the buffer's emptiness for `Bytes`, and false for
`Stream`. -/
theorem response_body_poll_spec {B E F : Type}
    (streamPoll : B → Poll (Option (Except E (List Nat))) × B) (conv : E → F)
    (b : List Nat) (s : B) :
    ResponseBodyM.poll_next streamPoll conv .none = (.ready Option.none, .none) ∧
    ResponseBodyM.poll_next streamPoll conv (.bytes b) = (.ready (some (.ok b)), .none) ∧
    ResponseBodyM.is_eof (ResponseBodyM.none : ResponseBodyM B) = true ∧
    ResponseBodyM.is_eof (ResponseBodyM.bytes b : ResponseBodyM B) = b.isEmpty ∧
    ResponseBodyM.is_eof (ResponseBodyM.stream s) = false :=
  ⟨rfl, rfl, rfl, rfl, rfl⟩

/-- A stream-poll oracle over a unit stream state, used to instantiate the
generic body at a concrete type. -/
def unitStreamPoll : Unit → Poll (Option (Except Nat (List Nat))) × Unit :=
  fun s => (.pending, s)

/-- C10: a `Bytes` body holding an empty buffer reports `is_eof` true, yet its
next poll still yields the one item `Some(Ok(empty bytes))` and only
transitions the body to `None`, whose subsequent poll reports end-of-stream —
the stream emits an empty chunk instead of ending immediately. -/
theorem empty_bytes_body_emits_empty_chunk :
    ResponseBodyM.is_eof (ResponseBodyM.bytes [] : ResponseBodyM Unit) = true ∧
    ResponseBodyM.poll_next unitStreamPoll (id : Nat → Nat) (ResponseBodyM.bytes [])
      = (.ready (some (.ok [])), .none) ∧
    ResponseBodyM.poll_next unitStreamPoll (id : Nat → Nat) ResponseBodyM.none
      = (.ready Option.none, .none) :=
  ⟨rfl, rfl, rfl⟩
